import Mathlib

/-- Code points of a string literal, the bridge between Lean string literals
and the `List Nat` string model used for the embedded code. -/
def strCodes (s : String) : List Nat := s.data.map Char.toNat

/-- ASCII lower-casing of one code point, as `String.prototype.toLowerCase`
acts on the characters appearing in domain names. -/
def lowerChar (c : Nat) : Nat := if 65 ≤ c ∧ c ≤ 90 then c + 32 else c

/-- `s.toLowerCase()` of domainUtils.ts. -/
def toLowerCodes (s : List Nat) : List Nat := s.map lowerChar

/-- Code points of `"https://"`. -/
def httpsCodes : List Nat := strCodes "https://"

/-- Code points of `"http://"`. -/
def httpCodes : List Nat := strCodes "http://"

/-- From normalizeDomain: `.replace` of the anchored protocol regex, removing
one leading `https://` or `http://` prefix. -/
def stripProtocol (s : List Nat) : List Nat :=
  if httpsCodes.isPrefixOf s then s.drop 8
  else if httpCodes.isPrefixOf s then s.drop 7
  else s

/-- From normalizeDomain: `.replace` of the anchored slash regex, removing one
trailing slash (code point 47). -/
def stripTrailingSlash (s : List Nat) : List Nat :=
  if s.getLast? = some 47 then s.dropLast else s

/-- JavaScript `String.prototype.trim` whitespace set (WhiteSpace and
LineTerminator code points). -/
def isJsWhitespace (c : Nat) : Bool :=
  c = 9 ∨ c = 10 ∨ c = 11 ∨ c = 12 ∨ c = 13 ∨ c = 32 ∨ c = 160 ∨ c = 5760 ∨
  (8192 ≤ c ∧ c ≤ 8202) ∨ c = 8232 ∨ c = 8233 ∨ c = 8239 ∨ c = 8287 ∨
  c = 12288 ∨ c = 65279

/-- From normalizeDomain: `.trim()`, dropping whitespace from both ends. -/
def trimCodes (s : List Nat) : List Nat :=
  (((s.dropWhile isJsWhitespace).reverse.dropWhile isJsWhitespace)).reverse

/-- `normalizeDomain` from src/shared/utils/domainUtils.ts: lower-case, strip
one protocol prefix, strip one trailing slash, trim. -/
def normalizeDomain (s : List Nat) : List Nat :=
  trimCodes (stripTrailingSlash (stripProtocol (toLowerCodes s)))

/-- The tenant client registry of src/shared/database/tenantClient.ts:
`tenantClients` is a `Map` from connection string to a constructed Prisma
client; construction is modelled by drawing a fresh handle number from a
counter, so reference equality of clients becomes equality of handle
numbers. -/
structure Registry where
  entries : List (List Nat × Nat)
  nextHandle : Nat
deriving DecidableEq, Repr

/-- `tenantClients.has`/`tenantClients.get`: the cached handle for a
connection string. -/
def Registry.lookup (r : Registry) (k : List Nat) : Option Nat :=
  (r.entries.find? (fun e => e.1 == k)).map (·.2)

/-- `getTenantClient`: return the cached client if present, otherwise
construct a new client, cache it, and return it. -/
def getTenantClient (r : Registry) (k : List Nat) : Nat × Registry :=
  match r.lookup k with
  | some h => (h, r)
  | none => (r.nextHandle, ⟨(k, r.nextHandle) :: r.entries, r.nextHandle + 1⟩)

/-- `disconnectTenantClient`: disconnect and drop the cached client for a
connection string. -/
def disconnectTenantClient (r : Registry) (k : List Nat) : Registry :=
  ⟨r.entries.filter (fun e => !(e.1 == k)), r.nextHandle⟩

/-- One registry operation of the interleavings considered by the spec. -/
inductive RegistryOp
  | get (k : List Nat)
  | evict (k : List Nat)
deriving DecidableEq

/-- Effect of one registry operation on the cache state. -/
def applyRegistryOp (r : Registry) : RegistryOp → Registry
  | .get k => (getTenantClient r k).2
  | .evict k => disconnectTenantClient r k

/-- Effect of a sequence of registry operations. -/
def applyRegistryOps (r : Registry) (ops : List RegistryOp) : Registry :=
  ops.foldl applyRegistryOp r

/-- Prisma `Decimal` is exact decimal arithmetic; it is embedded as `Rat`. -/
abbrev Money := Rat

/-- The invoice status enum `PENDING | PAID | OVERDUE`. -/
inductive InvoiceStatus
  | PENDING
  | PAID
  | OVERDUE
deriving DecidableEq, Repr

/-- A civil local time as JavaScript `Date` components: `year` is
`getFullYear()`, `month` is the 0-based `getMonth()`, `day` is the 1-based
`getDate()`. Seconds and finer are irrelevant to every modelled code path. -/
structure Civil where
  year : Int
  month : Nat
  day : Nat
  hour : Nat
  minute : Nat
deriving DecidableEq, Repr

/-- Chronological key: strictly monotone in the chronological order for valid
civil times (`month < 12`, `day ≤ 31`, `hour < 24`, `minute < 60`). -/
def Civil.key (c : Civil) : Int :=
  (((c.year * 12 + c.month) * 32 + c.day) * 24 + c.hour) * 60 + c.minute

/-- `Date` comparison `a < b`. -/
def Civil.before (a b : Civil) : Bool := a.key < b.key

/-- Gregorian leap-year rule, as JavaScript `Date` normalization applies it. -/
def isLeapYear (y : Int) : Bool := (y % 4 == 0 && y % 100 != 0) || y % 400 == 0

/-- Length of 0-based month `m` of year `y`. -/
def daysInMonth (y : Int) (m : Nat) : Nat :=
  if m = 1 then (if isLeapYear y then 29 else 28)
  else if m = 3 ∨ m = 5 ∨ m = 8 ∨ m = 10 then 30 else 31

/-- `getNextBillingDate` of CoreBillingService:
`new Date(now.getFullYear(), now.getMonth() + 1, 0)`, i.e. day 0 of the
following month — the last day of the *current* month, at midnight local
time. -/
def getNextBillingDate (now : Civil) : Civil :=
  ⟨now.year, now.month, daysInMonth now.year now.month, 0, 0⟩

/-- Control-plane `Project` row (the fields the billing core reads). -/
structure Project where
  id : Nat
  isActive : Bool
deriving DecidableEq, Repr

/-- Control-plane `Subscription` row. -/
structure Subscription where
  id : Nat
  projectId : Nat
  userId : Nat
  userPricePerMonth : Money
  applicationPricePerMonth : Money
  lastBilled : Option Civil
  nextBilling : Civil
  createdAt : Civil
  isActive : Bool
deriving DecidableEq, Repr

/-- Control-plane `Invoice` row. -/
structure Invoice where
  id : Nat
  subscriptionId : Nat
  projectId : Nat
  amount : Money
  userCount : Nat
  applicationCount : Nat
  userAmount : Money
  applicationAmount : Money
  periodStart : Civil
  periodEnd : Civil
  dueDate : Civil
  status : InvoiceStatus
  paidAt : Option Civil
deriving DecidableEq, Repr

/-- Control-plane `TenantApplication` row joined with its catalog
`Application` (`include: { application: true }`): `applicationPrice` is the
catalog `application.pricePerMonth`, `customPrice` the optional per-tenant
override. -/
structure TenantApplication where
  projectId : Nat
  applicationPrice : Money
  customPrice : Option Money
  isActive : Bool
deriving DecidableEq, Repr

/-- The control-plane store. `nextId` models the store's id generator for
created rows (and stands in for the generated unique invoice number). -/
structure Store where
  projects : List Project
  subscriptions : List Subscription
  invoices : List Invoice
  tenantApps : List TenantApplication
  nextId : Nat
deriving DecidableEq, Repr

/-- `project.findUnique` on the id. -/
def findProject (s : Store) (pid : Nat) : Option Project :=
  s.projects.find? (fun p => p.id == pid)

/-- `subscription.findFirst` on the project id with `isActive: true`. -/
def findActiveSubscription (s : Store) (pid : Nat) : Option Subscription :=
  s.subscriptions.find? (fun x => x.projectId == pid && x.isActive)

/-- `invoice.findUnique` on the id. -/
def findInvoice (s : Store) (invId : Nat) : Option Invoice :=
  s.invoices.find? (fun i => i.id == invId)

/-- The project's active `TenantApplication` rows
(`tenantApplications: { where: { isActive: true } }`). -/
def activeTenantApps (s : Store) (pid : Nat) : List TenantApplication :=
  s.tenantApps.filter (fun a => a.projectId == pid && a.isActive)

/-- `invoice.update` on the id. -/
def updateInvoice (s : Store) (invId : Nat) (f : Invoice → Invoice) : Store :=
  { s with invoices := s.invoices.map (fun i => if i.id == invId then f i else i) }

/-- `project.update` on the id. -/
def updateProject (s : Store) (pid : Nat) (f : Project → Project) : Store :=
  { s with projects := s.projects.map (fun p => if p.id == pid then f p else p) }

/-- `subscription.update` on the id. -/
def updateSubscription (s : Store) (subId : Nat) (f : Subscription → Subscription) : Store :=
  { s with subscriptions := s.subscriptions.map (fun x => if x.id == subId then f x else x) }

/-- Errors thrown by the billing service. -/
inductive BillingError
  | projectNotFound
  | noActiveSubscription
  | tenantDbError
  | invoiceNotFound
  | alreadyPaid
deriving DecidableEq, Repr

/-- Result record of `calculateBilling`. -/
structure BillingCalculation where
  userCount : Nat
  applicationCount : Nat
  userAmount : Money
  applicationAmount : Money
  totalAmount : Money
  periodStart : Civil
  periodEnd : Civil
deriving DecidableEq, Repr

/-- The cross-store read `tenantClient.tenantUser.count` against the tenant's
own database: an external oracle from project id to active-user count, or a
tenant-database failure. -/
def TenantEnv := Nat → Except Unit Nat

/-- The price charged for one tenant application:
`tenantApp.customPrice || tenantApp.application.pricePerMonth` (a Prisma
`Decimal` object is always truthy, so the disjunction is a null check). -/
def tenantAppPrice (a : TenantApplication) : Money :=
  a.customPrice.getD a.applicationPrice

/-- `createSubscription`: creates the subscription row with `nextBilling` set
to the last day of the current month; `lastBilled` starts unset and
`isActive` defaults to true. -/
def createSubscription (s : Store) (now : Civil) (pid uid : Nat)
    (userPrice appPrice : Money) : Subscription × Store :=
  let sub : Subscription :=
    { id := s.nextId, projectId := pid, userId := uid,
      userPricePerMonth := userPrice, applicationPricePerMonth := appPrice,
      lastBilled := none, nextBilling := getNextBillingDate now,
      createdAt := now, isActive := true }
  (sub, { s with subscriptions := s.subscriptions ++ [sub], nextId := s.nextId + 1 })

/-- `calculateBilling` of CoreBillingService. -/
def calculateBilling (env : TenantEnv) (s : Store) (now : Civil) (pid : Nat) :
    Except BillingError BillingCalculation :=
  match findProject s pid with
  | none => .error .projectNotFound
  | some _ =>
    match findActiveSubscription s pid with
    | none => .error .noActiveSubscription
    | some sub =>
      match env pid with
      | .error _ => .error .tenantDbError
      | .ok userCount =>
        let apps := activeTenantApps s pid
        let userAmount : Money := (userCount : Money) * sub.userPricePerMonth
        let applicationAmount : Money :=
          apps.foldl (fun acc a => acc + tenantAppPrice a) 0
        .ok { userCount := userCount,
              applicationCount := apps.length,
              userAmount := userAmount,
              applicationAmount := applicationAmount,
              totalAmount := userAmount + applicationAmount,
              periodStart := sub.lastBilled.getD sub.createdAt,
              periodEnd := now }

/-- The pure prefix of `generateMonthlyInvoice` before any write: the billing
calculation, the re-fetched active subscription, and the invoice row about to
be inserted (`status` defaults to `PENDING`, `paidAt` to unset). -/
def genInvoicePrepared (env : TenantEnv) (s : Store) (now : Civil) (pid : Nat) :
    Except BillingError (Invoice × Subscription) :=
  match calculateBilling env s now pid with
  | .error e => .error e
  | .ok calculation =>
    match findActiveSubscription s pid with
    | none => .error .noActiveSubscription
    | some sub =>
      .ok ({ id := s.nextId, subscriptionId := sub.id, projectId := pid,
             amount := calculation.totalAmount,
             userCount := calculation.userCount,
             applicationCount := calculation.applicationCount,
             userAmount := calculation.userAmount,
             applicationAmount := calculation.applicationAmount,
             periodStart := calculation.periodStart,
             periodEnd := calculation.periodEnd,
             dueDate := getNextBillingDate now,
             status := .PENDING, paidAt := none }, sub)

/-- First write of `generateMonthlyInvoice`: `invoice.create`. -/
def insertInvoice (s : Store) (inv : Invoice) : Store :=
  { s with invoices := s.invoices ++ [inv], nextId := s.nextId + 1 }

/-- Second write of `generateMonthlyInvoice`: `subscription.update` setting
`lastBilled` to now and `nextBilling` to the next billing date. -/
def advanceSubscription (s : Store) (subId : Nat) (now : Civil) : Store :=
  updateSubscription s subId
    (fun x => { x with lastBilled := some now, nextBilling := getNextBillingDate now })

/-- `generateMonthlyInvoice`: the two writes are issued as two separate
sequential awaits (no surrounding transaction in the source). -/
def generateMonthlyInvoice (env : TenantEnv) (s : Store) (now : Civil) (pid : Nat) :
    (Except BillingError Invoice) × Store :=
  match genInvoicePrepared env s now pid with
  | .error e => (.error e, s)
  | .ok (inv, sub) => (.ok inv, advanceSubscription (insertInvoice s inv) sub.id now)

/-- The state reached when the operation fails (or the process crashes)
between the two separate writes of `generateMonthlyInvoice`: the invoice row
is committed, the subscription advancement is not. -/
def generateMonthlyInvoiceCrashBetween (env : TenantEnv) (s : Store) (now : Civil)
    (pid : Nat) : Store :=
  match genInvoicePrepared env s now pid with
  | .error _ => s
  | .ok (inv, _) => insertInvoice s inv

/-- The update applied to the settled invoice: status `PAID`, `paidAt`
stamped. -/
def markPaid (now : Civil) (i : Invoice) : Invoice :=
  { i with status := .PAID, paidAt := some now }

/-- The update applied to the owning project on payment: `isActive: true`. -/
def activateProject (p : Project) : Project := { p with isActive := true }

/-- `processPayment`: reads the invoice, rejects if already `PAID`, otherwise
marks it paid and re-activates the owning project; the *returned* invoice is
the record as read before the update. -/
def processPayment (s : Store) (now : Civil) (invId : Nat) :
    (Except BillingError Invoice) × Store :=
  match findInvoice s invId with
  | none => (.error .invoiceNotFound, s)
  | some inv =>
    if inv.status = .PAID then (.error .alreadyPaid, s)
    else
      let s1 := updateInvoice s invId (markPaid now)
      let s2 := updateProject s1 inv.projectId activateProject
      (.ok inv, s2)

/-- The sweep's selection predicate: status `PENDING` and `dueDate` strictly
before now. -/
def isOverduePending (now : Civil) (i : Invoice) : Bool :=
  i.status = .PENDING && i.dueDate.before now

/-- The update applied to a swept invoice: status `OVERDUE`. -/
def markOverdue (i : Invoice) : Invoice := { i with status := .OVERDUE }

/-- The update applied to the swept invoice's project: `isActive: false`. -/
def deactivateProject (p : Project) : Project := { p with isActive := false }

/-- One iteration of the sweep loop: mark the invoice `OVERDUE`, deactivate
its project. -/
def sweepStep (st : Store) (i : Invoice) : Store :=
  updateProject (updateInvoice st i.id markOverdue) i.projectId deactivateProject

/-- `checkOverdueInvoices`: select the overdue `PENDING` invoices, mark each
`OVERDUE` and deactivate its project, and return how many were selected. -/
def checkOverdueInvoices (s : Store) (now : Civil) : Nat × Store :=
  let found := s.invoices.filter (isOverduePending now)
  let s' := found.foldl sweepStep s
  (found.length, s')

/-- Result record of `processMonthlyBilling`. -/
structure MonthlyBillingResult where
  processedCount : Nat
  errorCount : Nat
  overdueCount : Nat
deriving DecidableEq, Repr

/-- The per-subscription loop of `processMonthlyBilling`
(billingAutomationService.ts): each iteration calls `generateMonthlyInvoice`
inside its own try/catch, counting a success or a failure and never aborting
the remaining iterations. -/
def billingLoop (env : TenantEnv) (now : Civil)
    (acc : Nat × Nat × Store) (subs : List Subscription) : Nat × Nat × Store :=
  subs.foldl
    (fun (acc : Nat × Nat × Store) sub =>
      let (p, e, st) := acc
      match generateMonthlyInvoice env st now sub.projectId with
      | (.ok _, st') => (p + 1, e, st')
      | (.error _, _) => (p, e + 1, st))
    acc

/-- `processMonthlyBilling`: iterate every active subscription, then run the
overdue sweep once and fold its count into the result. -/
def processMonthlyBilling (env : TenantEnv) (s : Store) (now : Civil) :
    MonthlyBillingResult × Store :=
  let activeSubs := s.subscriptions.filter (fun x => x.isActive)
  let (p, e, s1) := billingLoop env now (0, 0, s) activeSubs
  let (overdue, s2) := checkOverdueInvoices s1 now
  ({ processedCount := p, errorCount := e, overdueCount := overdue }, s2)

/-- Outcome of the domain-directory lookup as the caller of
`getProjectIdByDomain` observes it. -/
inductive DomainLookupOutcome
  | found (pid : Nat)
  | noMatch
deriving DecidableEq, Repr

/-- The tenant directory's response to a domain query: a matching project id,
no match, or a store failure. -/
def DirectoryEnv := List Nat → Except Unit (Option Nat)

/-- `getProjectIdByDomain` of tenantMiddleware.ts: the `try`/`catch` around
the directory query logs a store failure and returns `null`, so the caller
observes `noMatch` — it never observes the failure. -/
def getProjectIdByDomain (dir : DirectoryEnv) (domain : List Nat) :
    DomainLookupOutcome :=
  match dir domain with
  | .ok (some pid) => .found pid
  | .ok none => .noMatch
  | .error _ => .noMatch

/-- `extractDomainFromHost` of domainUtils.ts:
`host.split(':')[0].toLowerCase()`. -/
def extractDomainFromHost (host : List Nat) : List Nat :=
  toLowerCodes (host.takeWhile (fun c => !(c == 58)))

/-- The project-id determination of `tenantMiddleware`: the `X-Project-ID`
header takes precedence; otherwise the host header's domain is extracted,
normalized and looked up in the directory; a lookup error or no match leaves
the request tenant-less (`none`), and the route proceeds without tenant
context. -/
def resolveProjectId (dir : DirectoryEnv) (headerProjectId : Option Nat)
    (host : Option (List Nat)) : Option Nat :=
  match headerProjectId with
  | some pid => some pid
  | none =>
    match host with
    | none => none
    | some h =>
      match getProjectIdByDomain dir (normalizeDomain (extractDomainFromHost h)) with
      | .found pid => some pid
      | .noMatch => none

/-- Every code point of the list is a fixed point of ASCII lower-casing. -/
def lowerFixed (l : List Nat) : Prop := ∀ c ∈ l, lowerChar c = c

/-- Keys of the registry map are pairwise distinct (the `Map` holds at most
one entry per connection string). -/
def keysNodup (r : Registry) : Prop := (r.entries.map (·.1)).Nodup

/-- Witness fixture: a deactivated project owning an `OVERDUE` unpaid
invoice. -/
def sampleProject : Project := { id := 1, isActive := false }

/-- Witness fixture: the subscription of `sampleProject`. -/
def sampleSubscription : Subscription :=
  { id := 10, projectId := 1, userId := 5,
    userPricePerMonth := 10, applicationPricePerMonth := 0,
    lastBilled := none, nextBilling := ⟨2025, 0, 31, 0, 0⟩,
    createdAt := ⟨2025, 0, 10, 9, 0⟩, isActive := true }

/-- Witness fixture: an `OVERDUE` unpaid invoice of `sampleProject`. -/
def sampleInvoice : Invoice :=
  { id := 100, subscriptionId := 10, projectId := 1,
    amount := 30, userCount := 3, applicationCount := 0,
    userAmount := 30, applicationAmount := 0,
    periodStart := ⟨2025, 0, 10, 9, 0⟩, periodEnd := ⟨2025, 0, 31, 23, 59⟩,
    dueDate := ⟨2025, 0, 31, 0, 0⟩, status := .OVERDUE, paidAt := none }

/-- Witness fixture store for the processPayment claims. -/
def sampleStore : Store :=
  { projects := [sampleProject], subscriptions := [sampleSubscription],
    invoices := [sampleInvoice], tenantApps := [], nextId := 200 }

/-- Witness fixture: a `PENDING` invoice due at midnight of Jan 31, 2025. -/
def sweepInvoice : Invoice :=
  { id := 300, subscriptionId := 11, projectId := 2,
    amount := 10, userCount := 1, applicationCount := 0,
    userAmount := 10, applicationAmount := 0,
    periodStart := ⟨2025, 0, 1, 0, 0⟩, periodEnd := ⟨2025, 0, 31, 0, 0⟩,
    dueDate := ⟨2025, 0, 31, 0, 0⟩, status := .PENDING, paidAt := none }

/-- Witness fixture store for the sweep claim: one active project, one
`PENDING` invoice past due. -/
def sweepStore : Store :=
  { projects := [{ id := 2, isActive := true }],
    subscriptions := [],
    invoices := [sweepInvoice],
    tenantApps := [], nextId := 400 }

/-- Billing fixture: a $10-per-user subscription with `nextBilling` still at
the previous cycle (Dec 31, 2024), never billed. -/
def billSub : Subscription :=
  { id := 20, projectId := 3, userId := 7,
    userPricePerMonth := 10, applicationPricePerMonth := 0,
    lastBilled := none, nextBilling := ⟨2024, 11, 31, 0, 0⟩,
    createdAt := ⟨2025, 0, 5, 10, 0⟩, isActive := true }

/-- Billing fixture: a tenant application with a custom price override. -/
def appA : TenantApplication :=
  { projectId := 3, applicationPrice := 5, customPrice := some 3, isActive := true }

/-- Billing fixture: a tenant application billed at the catalog price. -/
def appB : TenantApplication :=
  { projectId := 3, applicationPrice := 7, customPrice := none, isActive := true }

/-- Billing fixture store: one active project with one active subscription
and two active tenant applications. -/
def billStore : Store :=
  { projects := [{ id := 3, isActive := true }],
    subscriptions := [billSub], invoices := [],
    tenantApps := [appA, appB], nextId := 500 }

/-- Billing fixture: tenant-database oracle reporting 3 active users. -/
def billEnv : TenantEnv := fun _ => .ok 3

/-- Billing fixture: a mid-month run time. -/
def billNow : Civil := ⟨2025, 0, 15, 10, 0⟩

/-- Evaluation of the billing fixture: the invoice created on Jan 15, 2025
for project 3 (3 users at 10, applications at 3 custom and 7 catalog). -/
def cInv : Invoice :=
  { id := 500, subscriptionId := 20, projectId := 3,
    amount := 40, userCount := 3, applicationCount := 2,
    userAmount := 30, applicationAmount := 10,
    periodStart := ⟨2025, 0, 5, 10, 0⟩, periodEnd := ⟨2025, 0, 15, 10, 0⟩,
    dueDate := ⟨2025, 0, 31, 0, 0⟩, status := .PENDING, paidAt := none }

/-- The moment the monthly scheduler fires: 23:59 on the last day of the
month. -/
def c4Now : Civil := ⟨2025, 0, 31, 23, 59⟩

/-- The invoice the billing fixture produces when generated at `c4Now`. -/
def c4Inv : Invoice :=
  { id := 500, subscriptionId := 20, projectId := 3,
    amount := 40, userCount := 3, applicationCount := 2,
    userAmount := 30, applicationAmount := 10,
    periodStart := ⟨2025, 0, 5, 10, 0⟩, periodEnd := c4Now,
    dueDate := ⟨2025, 0, 31, 0, 0⟩, status := .PENDING, paidAt := none }

/-- Zero-usage fixture: the subscription of a tenant with no users and no
applications. -/
def zeroSub : Subscription :=
  { id := 30, projectId := 4, userId := 9,
    userPricePerMonth := 10, applicationPricePerMonth := 0,
    lastBilled := none, nextBilling := ⟨2024, 11, 31, 0, 0⟩,
    createdAt := ⟨2024, 11, 1, 0, 0⟩, isActive := true }

/-- Zero-usage fixture store: an active project with an active subscription,
no users in the tenant database, no applications. -/
def zeroStore : Store :=
  { projects := [{ id := 4, isActive := true }],
    subscriptions := [zeroSub], invoices := [], tenantApps := [], nextId := 600 }

/-- Zero-usage fixture: tenant-database oracle reporting zero active users. -/
def zeroEnv : TenantEnv := fun _ => .ok 0

/-! ## Theorems -/

/-- ASCII lower-casing is idempotent on one code point. -/
theorem lowerChar_idem (c : Nat) : lowerChar (lowerChar c) = lowerChar c := by
  unfold lowerChar
  by_cases h : 65 ≤ c ∧ c ≤ 90
  · rw [if_pos h, if_neg (by omega)]
  · rw [if_neg h, if_neg h]

/-- Lower-cased strings are lower-fixed. -/
theorem lowerFixed_toLowerCodes (s : List Nat) : lowerFixed (toLowerCodes s) := by
  intro c hc
  simp only [toLowerCodes, List.mem_map] at hc
  obtain ⟨a, _, rfl⟩ := hc
  exact lowerChar_idem a

/-- `trimCodes` as a left `dropWhile` followed by a right `rdropWhile`. -/
theorem trimCodes_eq_rdropWhile (l : List Nat) :
    trimCodes l = (l.dropWhile isJsWhitespace).rdropWhile isJsWhitespace := rfl

/-- Trimming only removes code points. -/
theorem mem_of_mem_trimCodes {c : Nat} {l : List Nat} (h : c ∈ trimCodes l) : c ∈ l := by
  rw [trimCodes_eq_rdropWhile] at h
  exact (List.dropWhile_suffix isJsWhitespace).subset
    ((List.rdropWhile_prefix isJsWhitespace _).subset h)

/-- Removing a trailing slash only removes code points. -/
theorem mem_of_mem_stripTrailingSlash {c : Nat} {l : List Nat}
    (h : c ∈ stripTrailingSlash l) : c ∈ l := by
  unfold stripTrailingSlash at h
  split at h
  · exact (List.dropLast_prefix l).subset h
  · exact h

/-- Removing a protocol prefix only removes code points. -/
theorem mem_of_mem_stripProtocol {c : Nat} {l : List Nat}
    (h : c ∈ stripProtocol l) : c ∈ l := by
  unfold stripProtocol at h
  split at h
  · exact List.mem_of_mem_drop h
  · split at h
    · exact List.mem_of_mem_drop h
    · exact h

/-- Normalized domains are lower-fixed. -/
theorem lowerFixed_normalizeDomain (s : List Nat) : lowerFixed (normalizeDomain s) := by
  intro c hc
  exact lowerFixed_toLowerCodes s c
    (mem_of_mem_stripProtocol (mem_of_mem_stripTrailingSlash (mem_of_mem_trimCodes hc)))

/-- Lower-casing fixes a lower-fixed string. -/
theorem toLowerCodes_of_lowerFixed {l : List Nat} (h : lowerFixed l) :
    toLowerCodes l = l := by
  unfold toLowerCodes
  rw [List.map_congr_left h]
  exact List.map_id' l

/-- Trimming is idempotent. -/
theorem trimCodes_trimCodes (l : List Nat) : trimCodes (trimCodes l) = trimCodes l := by
  rw [trimCodes_eq_rdropWhile, trimCodes_eq_rdropWhile l]
  have A : ((l.dropWhile isJsWhitespace).rdropWhile isJsWhitespace).dropWhile isJsWhitespace
      = (l.dropWhile isJsWhitespace).rdropWhile isJsWhitespace := by
    rw [List.dropWhile_eq_self_iff]
    intro hl
    have hp := List.rdropWhile_prefix isJsWhitespace (l.dropWhile isJsWhitespace)
    have hlen : 0 < (l.dropWhile isJsWhitespace).length := lt_of_lt_of_le hl hp.length_le
    have hg := hp.getElem (n := 0) hl
    have h2 := (List.dropWhile_eq_self_iff).mp (List.dropWhile_idempotent isJsWhitespace l) hlen
    simpa [List.get_eq_getElem, hg] using h2
  rw [A, List.rdropWhile_idempotent]

/-- Trimming fixes a normalized domain. -/
theorem trimCodes_normalizeDomain (s : List Nat) :
    trimCodes (normalizeDomain s) = normalizeDomain s :=
  trimCodes_trimCodes (stripTrailingSlash (stripProtocol (toLowerCodes s)))

/-- C7 (amended): `normalizeDomain` is idempotent on every input whose
normalized form retains no `http://`/`https://` prefix and no trailing slash
(the function strips only one layer of each, so e.g. `"acme.com//"` breaks
unrestricted idempotence), and the concrete canonical-form chain of the claim
holds: `normalizeDomain "HTTPS://Acme.com/" = normalizeDomain "acme.com" =
"acme.com"`. -/
theorem C7_normalizeDomain_conditional_idem :
    (∀ s : List Nat,
        httpsCodes.isPrefixOf (normalizeDomain s) = false →
        httpCodes.isPrefixOf (normalizeDomain s) = false →
        (normalizeDomain s).getLast? ≠ some 47 →
        normalizeDomain (normalizeDomain s) = normalizeDomain s) ∧
    normalizeDomain (strCodes "HTTPS://Acme.com/") = normalizeDomain (strCodes "acme.com") ∧
    normalizeDomain (strCodes "acme.com") = strCodes "acme.com" := by
  refine ⟨?_, by decide, by decide⟩
  intro s h1 h2 h3
  have hy : toLowerCodes (normalizeDomain s) = normalizeDomain s :=
    toLowerCodes_of_lowerFixed (lowerFixed_normalizeDomain s)
  calc normalizeDomain (normalizeDomain s)
      = trimCodes (stripTrailingSlash (stripProtocol (toLowerCodes (normalizeDomain s)))) := rfl
    _ = trimCodes (stripTrailingSlash (stripProtocol (normalizeDomain s))) := by rw [hy]
    _ = trimCodes (stripTrailingSlash (normalizeDomain s)) := by
          simp [stripProtocol, h1, h2]
    _ = trimCodes (normalizeDomain s) := by
          simp [stripTrailingSlash, h3]
    _ = normalizeDomain s := trimCodes_normalizeDomain s

/-- C7 counterexample: the claim's unrestricted idempotence
`normalizeDomain (normalizeDomain x) = normalizeDomain x` fails, because the
function removes only one trailing slash: `"acme.com//"` normalizes to
`"acme.com/"`, which normalizes again to `"acme.com"`. -/
theorem C7_counterexample :
    normalizeDomain (normalizeDomain (strCodes "acme.com//")) ≠
      normalizeDomain (strCodes "acme.com//") := by decide

/-- Witness for `C7_normalizeDomain_conditional_idem` at `"x.com"`. -/
theorem C7_witness :
    normalizeDomain (normalizeDomain (strCodes "x.com")) =
      normalizeDomain (strCodes "x.com") :=
  C7_normalizeDomain_conditional_idem.1 (strCodes "x.com")
    (by decide) (by decide) (by decide)

/-- Filtering by a predicate implied by the search predicate commutes with
`find?`. -/
theorem find?_filter_eq {α : Type} (p q : α → Bool) (l : List α)
    (him : ∀ e, p e = true → q e = true) : (l.filter q).find? p = l.find? p := by
  induction l with
  | nil => rfl
  | cons a t ih =>
    by_cases hq : q a = true
    · rw [List.filter_cons_of_pos hq]
      by_cases hp : p a = true
      · rw [List.find?_cons_of_pos _ hp, List.find?_cons_of_pos _ hp]
      · rw [List.find?_cons_of_neg _ hp, List.find?_cons_of_neg _ hp, ih]
    · have hp : ¬p a = true := fun hpa => hq (him a hpa)
      rw [List.filter_cons_of_neg (by simpa using hq), ih,
          List.find?_cons_of_neg _ hp]

/-- After `getTenantClient`, the key is cached with the returned handle. -/
theorem lookup_after_get_self (r : Registry) (k : List Nat) :
    ((getTenantClient r k).2).lookup k = some (getTenantClient r k).1 := by
  unfold getTenantClient
  cases hr : r.lookup k with
  | some h => simpa using hr
  | none => simp [Registry.lookup]

/-- `getTenantClient` for any key preserves existing cache entries. -/
theorem lookup_preserved_get (r : Registry) (k k' : List Nat) (h : Nat)
    (hk : r.lookup k = some h) : ((getTenantClient r k').2).lookup k = some h := by
  unfold getTenantClient
  cases hr : r.lookup k' with
  | some _ => simpa using hk
  | none =>
    by_cases hkk : k' = k
    · subst hkk; rw [hk] at hr; cases hr
    · simpa [Registry.lookup, List.find?_cons_of_neg, hkk] using hk

/-- Evicting a different key preserves a cache entry. -/
theorem lookup_preserved_evict (r : Registry) (k k' : List Nat) (hne : k' ≠ k) :
    (disconnectTenantClient r k').lookup k = r.lookup k := by
  unfold disconnectTenantClient Registry.lookup
  rw [find?_filter_eq]
  intro e he
  simp only [beq_iff_eq] at he ⊢
  simp [he, Ne.symm hne]

/-- Any operation sequence that never evicts `k` preserves `k`'s cache
entry. -/
theorem lookup_preserved_ops (k : List Nat) (h : Nat) (ops : List RegistryOp) :
    ∀ (r : Registry), (∀ k', RegistryOp.evict k' ∈ ops → k' ≠ k) →
      r.lookup k = some h → (applyRegistryOps r ops).lookup k = some h := by
  induction ops with
  | nil => intro r _ hk; exact hk
  | cons op rest ih =>
    intro r hno hk
    have hstep : (applyRegistryOp r op).lookup k = some h := by
      cases op with
      | get k' => exact lookup_preserved_get r k k' h hk
      | evict k' =>
        rw [applyRegistryOp, lookup_preserved_evict r k k'
          (hno k' (List.mem_cons_self _ _))]
        exact hk
    exact ih (applyRegistryOp r op) (fun k' hm => hno k' (List.mem_cons_of_mem _ hm)) hstep

/-- A cached key is served from the cache, leaving the registry unchanged. -/
theorem getTenantClient_of_lookup (r : Registry) (k : List Nat) (h : Nat)
    (hk : r.lookup k = some h) : getTenantClient r k = (h, r) := by
  unfold getTenantClient
  rw [hk]

/-- `getTenantClient` preserves key distinctness. -/
theorem keysNodup_get (r : Registry) (k : List Nat) (h : keysNodup r) :
    keysNodup (getTenantClient r k).2 := by
  unfold getTenantClient
  cases hr : r.lookup k with
  | some _ => exact h
  | none =>
    have hnone := hr
    unfold Registry.lookup at hnone
    rw [Option.map_eq_none'] at hnone
    rw [List.find?_eq_none] at hnone
    simp only [keysNodup, List.map_cons, List.nodup_cons]
    refine ⟨?_, h⟩
    intro hmem
    obtain ⟨e, he, hek⟩ := List.mem_map.mp hmem
    exact hnone e he (by simp [hek])

/-- `disconnectTenantClient` preserves key distinctness. -/
theorem keysNodup_evict (r : Registry) (k : List Nat) (h : keysNodup r) :
    keysNodup (disconnectTenantClient r k) :=
  List.Nodup.sublist (List.Sublist.map _ (List.filter_sublist _)) h

/-- Operation sequences preserve key distinctness. -/
theorem keysNodup_ops (ops : List RegistryOp) :
    ∀ (r : Registry), keysNodup r → keysNodup (applyRegistryOps r ops) := by
  induction ops with
  | nil => intro r h; exact h
  | cons op rest ih =>
    intro r h
    refine ih _ ?_
    cases op with
    | get k => exact keysNodup_get r k h
    | evict k => exact keysNodup_evict r k h

/-- After eviction the key is no longer cached. -/
theorem lookup_evict_self (r : Registry) (k : List Nat) :
    (disconnectTenantClient r k).lookup k = none := by
  unfold disconnectTenantClient Registry.lookup
  rw [Option.map_eq_none', List.find?_eq_none]
  intro e he
  have h2 := (List.mem_filter.mp he).2
  simp only [Bool.not_eq_true'] at h2
  simp [h2]

/-- C9: the registry holds at most one live handle per connection identity:
a second `getTenantClient` for the same connection string, after any
interleaving of operations that never evicts that string, returns the
identical handle and leaves the registry unchanged (no new construction);
a cached key is always served from the cache; `disconnectTenantClient`
removes the key so the next `getTenantClient` constructs a fresh client;
and every operation sequence preserves at-most-one-entry-per-key. -/
theorem C9_registry_cache :
    (∀ (r : Registry) (k : List Nat) (ops : List RegistryOp),
        (∀ k', RegistryOp.evict k' ∈ ops → k' ≠ k) →
        getTenantClient (applyRegistryOps (getTenantClient r k).2 ops) k
          = ((getTenantClient r k).1, applyRegistryOps (getTenantClient r k).2 ops)) ∧
    (∀ (r : Registry) (k : List Nat) (h : Nat), r.lookup k = some h →
        getTenantClient r k = (h, r)) ∧
    (∀ (r : Registry) (k : List Nat),
        (disconnectTenantClient r k).lookup k = none ∧
        getTenantClient (disconnectTenantClient r k) k
          = ((disconnectTenantClient r k).nextHandle,
             ⟨(k, (disconnectTenantClient r k).nextHandle)
                :: (disconnectTenantClient r k).entries,
              (disconnectTenantClient r k).nextHandle + 1⟩)) ∧
    (∀ (r : Registry) (ops : List RegistryOp), keysNodup r →
        keysNodup (applyRegistryOps r ops)) := by
  refine ⟨?_, getTenantClient_of_lookup, ?_, fun r ops h => keysNodup_ops ops r h⟩
  · intro r k ops hno
    have h1 := lookup_after_get_self r k
    have h2 := lookup_preserved_ops k (getTenantClient r k).1 ops (getTenantClient r k).2 hno h1
    exact getTenantClient_of_lookup _ k _ h2
  · intro r k
    refine ⟨lookup_evict_self r k, ?_⟩
    unfold getTenantClient
    rw [lookup_evict_self r k]

/-- Witness for `C9_registry_cache`: after caching a handle for `"db-a"`,
getting and evicting the unrelated key `"db-b"` leaves the `"db-a"` handle
shared. -/
theorem C9_registry_cache_witness :
    getTenantClient
        (applyRegistryOps (getTenantClient ⟨[], 0⟩ (strCodes "db-a")).2
          [RegistryOp.get (strCodes "db-b"), RegistryOp.evict (strCodes "db-b")])
        (strCodes "db-a")
      = ((getTenantClient ⟨[], 0⟩ (strCodes "db-a")).1,
         applyRegistryOps (getTenantClient ⟨[], 0⟩ (strCodes "db-a")).2
          [RegistryOp.get (strCodes "db-b"), RegistryOp.evict (strCodes "db-b")]) :=
  C9_registry_cache.1 ⟨[], 0⟩ (strCodes "db-a")
    [RegistryOp.get (strCodes "db-b"), RegistryOp.evict (strCodes "db-b")]
    (by intro k' hm; simp at hm; subst hm; decide)

/-- Finding the updated id after an id-preserving conditional map update. -/
theorem find?_map_update {α : Type} (getId : α → Nat) (tid : Nat) (f : α → α)
    (hpres : ∀ x, getId (f x) = getId x) (l : List α) :
    (l.map (fun x => if getId x == tid then f x else x)).find? (fun x => getId x == tid)
      = (l.find? (fun x => getId x == tid)).map f := by
  rw [List.find?_map]
  have hpg : ((fun x => getId x == tid) ∘ (fun x => if getId x == tid then f x else x))
      = (fun x => getId x == tid) := by
    funext x
    by_cases h : (getId x == tid) = true <;> simp [Function.comp, h, hpres]
  rw [hpg]
  cases hf : l.find? (fun x => getId x == tid) with
  | none => rfl
  | some a =>
    have ha := List.find?_some hf
    rw [beq_iff_eq] at ha
    simp [ha]

/-- `findInvoice` after `updateInvoice` on the same id. -/
theorem findInvoice_updateInvoice_self (s : Store) (invId : Nat) (f : Invoice → Invoice)
    (hpres : ∀ i, (f i).id = i.id) :
    findInvoice (updateInvoice s invId f) invId = (findInvoice s invId).map f :=
  find?_map_update Invoice.id invId f hpres s.invoices

/-- `findProject` after `updateProject` on the same id. -/
theorem findProject_updateProject_self (s : Store) (pid : Nat) (f : Project → Project)
    (hpres : ∀ p, (f p).id = p.id) :
    findProject (updateProject s pid f) pid = (findProject s pid).map f :=
  find?_map_update Project.id pid f hpres s.projects

/-- `processPayment` on a store whose invoice lookup succeeds. -/
theorem processPayment_eq (s : Store) (now : Civil) (invId : Nat) (inv : Invoice)
    (hfind : findInvoice s invId = some inv) :
    processPayment s now invId
      = if inv.status = .PAID then (.error .alreadyPaid, s)
        else (.ok inv, updateProject (updateInvoice s invId (markPaid now))
          inv.projectId activateProject) := by
  unfold processPayment
  rw [hfind]

/-- C1: `processPayment` rejects with the already-paid error iff the stored
invoice's status is already `PAID`; in that case the store (hence the
invoice's `amount` and `paidAt`) is untouched; otherwise (status `PENDING` or
`OVERDUE`) the stored invoice becomes `PAID` with `paidAt` stamped and the
owning project's `isActive` is set to true — including an `OVERDUE` invoice
of a deactivated project. -/
theorem C1_processPayment_settlement (s : Store) (now : Civil) (invId : Nat)
    (inv : Invoice) (hfind : findInvoice s invId = some inv) :
    ((processPayment s now invId).1 = .error .alreadyPaid ↔ inv.status = .PAID) ∧
    (inv.status = .PAID → (processPayment s now invId).2 = s) ∧
    (inv.status ≠ .PAID →
      findInvoice (processPayment s now invId).2 invId = some (markPaid now inv) ∧
      ∀ proj, findProject s inv.projectId = some proj →
        findProject (processPayment s now invId).2 inv.projectId
          = some (activateProject proj)) := by
  rw [processPayment_eq s now invId inv hfind]
  by_cases hst : inv.status = .PAID
  · rw [if_pos hst]
    exact ⟨⟨fun _ => hst, fun _ => rfl⟩, fun _ => rfl, fun hne => absurd hst hne⟩
  · rw [if_neg hst]
    refine ⟨⟨(fun h => by cases h), fun h => absurd h hst⟩, fun h => absurd h hst,
      fun _ => ⟨?_, ?_⟩⟩
    · have hinvs : findInvoice
          (updateProject (updateInvoice s invId (markPaid now)) inv.projectId
            activateProject) invId
          = findInvoice (updateInvoice s invId (markPaid now)) invId := rfl
      show findInvoice (updateProject (updateInvoice s invId (markPaid now))
        inv.projectId activateProject) invId = some (markPaid now inv)
      rw [hinvs, findInvoice_updateInvoice_self s invId (markPaid now)
        (fun _ => rfl), hfind]
      rfl
    · intro proj hproj
      have hprojs : findProject (updateInvoice s invId (markPaid now)) inv.projectId
          = findProject s inv.projectId := rfl
      show findProject (updateProject (updateInvoice s invId (markPaid now))
        inv.projectId activateProject) inv.projectId = some (activateProject proj)
      rw [findProject_updateProject_self _ inv.projectId activateProject
        (fun _ => rfl), hprojs, hproj]
      rfl

/-- Witness for `C1_processPayment_settlement` on the sample store, whose
invoice 100 is `OVERDUE` and whose project is deactivated. -/
theorem C1_witness :
    ((processPayment sampleStore ⟨2025, 1, 1, 0, 0⟩ 100).1 = .error .alreadyPaid
        ↔ sampleInvoice.status = .PAID) ∧
    (sampleInvoice.status = .PAID →
      (processPayment sampleStore ⟨2025, 1, 1, 0, 0⟩ 100).2 = sampleStore) ∧
    (sampleInvoice.status ≠ .PAID →
      findInvoice (processPayment sampleStore ⟨2025, 1, 1, 0, 0⟩ 100).2 100
          = some (markPaid ⟨2025, 1, 1, 0, 0⟩ sampleInvoice) ∧
      ∀ proj, findProject sampleStore sampleInvoice.projectId = some proj →
        findProject (processPayment sampleStore ⟨2025, 1, 1, 0, 0⟩ 100).2
            sampleInvoice.projectId = some (activateProject proj)) :=
  C1_processPayment_settlement sampleStore ⟨2025, 1, 1, 0, 0⟩ 100 sampleInvoice
    (by decide)

/-- C10: for an invoice whose stored status is not `PAID` (and whose `paidAt`
is unset, as for every reachable non-`PAID` invoice), the `Invoice` value
returned by a successful `processPayment` is the record as read before
settlement — status still the pre-settlement value, `paidAt` still unset —
even though the persisted invoice has been updated to `PAID` with `paidAt`
stamped. -/
theorem C10_processPayment_returns_presettlement_record (s : Store) (now : Civil)
    (invId : Nat) (inv : Invoice) (hfind : findInvoice s invId = some inv)
    (hst : inv.status ≠ .PAID) (hpaid : inv.paidAt = none) :
    (processPayment s now invId).1 = .ok inv ∧
    (∀ ret, (processPayment s now invId).1 = .ok ret →
      ret.status = inv.status ∧ ret.paidAt = none) ∧
    findInvoice (processPayment s now invId).2 invId = some (markPaid now inv) := by
  rw [processPayment_eq s now invId inv hfind, if_neg hst]
  refine ⟨rfl, ?_, ?_⟩
  · intro ret hr
    cases hr
    exact ⟨rfl, hpaid⟩
  · have hinvs : findInvoice
        (updateProject (updateInvoice s invId (markPaid now)) inv.projectId
          activateProject) invId
        = findInvoice (updateInvoice s invId (markPaid now)) invId := rfl
    show findInvoice (updateProject (updateInvoice s invId (markPaid now))
      inv.projectId activateProject) invId = some (markPaid now inv)
    rw [hinvs, findInvoice_updateInvoice_self s invId (markPaid now)
      (fun _ => rfl), hfind]
    rfl

/-- Witness for `C10_processPayment_returns_presettlement_record` on the
sample store. -/
theorem C10_witness :
    (processPayment sampleStore ⟨2025, 1, 1, 0, 0⟩ 100).1 = .ok sampleInvoice ∧
    (∀ ret, (processPayment sampleStore ⟨2025, 1, 1, 0, 0⟩ 100).1 = .ok ret →
      ret.status = sampleInvoice.status ∧ ret.paidAt = none) ∧
    findInvoice (processPayment sampleStore ⟨2025, 1, 1, 0, 0⟩ 100).2 100
      = some (markPaid ⟨2025, 1, 1, 0, 0⟩ sampleInvoice) :=
  C10_processPayment_returns_presettlement_record sampleStore ⟨2025, 1, 1, 0, 0⟩ 100
    sampleInvoice (by decide) (by decide) (by decide)

/-- Marking overdue preserves the invoice id. -/
theorem markOverdue_id (j : Invoice) : (markOverdue j).id = j.id := rfl

/-- Marking overdue is idempotent. -/
theorem markOverdue_markOverdue (j : Invoice) :
    markOverdue (markOverdue j) = markOverdue j := rfl

/-- Deactivation is idempotent. -/
theorem deactivateProject_deactivateProject (p : Project) :
    deactivateProject (deactivateProject p) = deactivateProject p := rfl

/-- Invoices after one sweep iteration. -/
theorem sweepStep_invoices (st : Store) (i : Invoice) :
    (sweepStep st i).invoices
      = st.invoices.map (fun j => if j.id == i.id then markOverdue j else j) := rfl

/-- Projects after one sweep iteration. -/
theorem sweepStep_projects (st : Store) (i : Invoice) :
    (sweepStep st i).projects
      = st.projects.map (fun p => if p.id == i.projectId then deactivateProject p else p) :=
  rfl

/-- Invoices after the whole sweep fold: exactly the selected ids are marked
`OVERDUE`. -/
theorem sweep_invoices (found : List Invoice) :
    ∀ s : Store, (found.foldl sweepStep s).invoices
      = s.invoices.map
          (fun j => if found.any (fun i => j.id == i.id) then markOverdue j else j) := by
  induction found with
  | nil =>
    intro s
    simp
  | cons i rest ih =>
    intro s
    rw [List.foldl_cons, ih (sweepStep s i), sweepStep_invoices, List.map_map]
    apply List.map_congr_left
    intro j _
    simp only [Function.comp, List.any_cons]
    by_cases h1 : (j.id == i.id) = true
    · simp only [if_pos h1, h1, Bool.true_or, if_pos]
      by_cases h2 : (rest.any (fun i' => (markOverdue j).id == i'.id)) = true
      · rw [if_pos h2, markOverdue_markOverdue]
      · rw [if_neg h2]
    · simp [h1]

/-- Projects after the whole sweep fold: exactly the owners of selected
invoices are deactivated. -/
theorem sweep_projects (found : List Invoice) :
    ∀ s : Store, (found.foldl sweepStep s).projects
      = s.projects.map
          (fun p => if found.any (fun i => p.id == i.projectId)
                    then deactivateProject p else p) := by
  induction found with
  | nil =>
    intro s
    simp
  | cons i rest ih =>
    intro s
    rw [List.foldl_cons, ih (sweepStep s i), sweepStep_projects, List.map_map]
    apply List.map_congr_left
    intro p _
    simp only [Function.comp, List.any_cons]
    by_cases h1 : (p.id == i.projectId) = true
    · simp only [if_pos h1, h1, Bool.true_or, if_pos]
      by_cases h2 : (rest.any (fun i' => (deactivateProject p).id == i'.projectId)) = true
      · rw [if_pos h2, deactivateProject_deactivateProject]
      · rw [if_neg h2]
    · simp [h1]

/-- `checkOverdueInvoices` as filter, fold and count. -/
theorem checkOverdueInvoices_eq (s : Store) (now : Civil) :
    checkOverdueInvoices s now
      = ((s.invoices.filter (isOverduePending now)).length,
         (s.invoices.filter (isOverduePending now)).foldl sweepStep s) := rfl

/-- C2: the sweep transitions an invoice to `OVERDUE` iff its status is
`PENDING` and its `dueDate` is strictly before now (all other invoices —
`PAID`, already-`OVERDUE`, or not yet due — are left unchanged, and there is
no reverse transition); every project owning a swept invoice has `isActive`
set to false (and no other project is touched); and the returned count is
exactly the number of invoices swept. -/
theorem C2_overdue_sweep (s : Store) (now : Civil)
    (hnd : (s.invoices.map Invoice.id).Nodup) :
    (checkOverdueInvoices s now).1
        = (s.invoices.filter (isOverduePending now)).length ∧
    (checkOverdueInvoices s now).2.invoices
        = s.invoices.map
            (fun j => if isOverduePending now j then markOverdue j else j) ∧
    (checkOverdueInvoices s now).2.projects
        = s.projects.map
            (fun p => if (s.invoices.filter (isOverduePending now)).any
                          (fun i => p.id == i.projectId)
                      then deactivateProject p else p) := by
  rw [checkOverdueInvoices_eq]
  refine ⟨rfl, ?_, ?_⟩
  · rw [sweep_invoices]
    apply List.map_congr_left
    intro j hj
    by_cases hp : isOverduePending now j = true
    · have hmem : j ∈ s.invoices.filter (isOverduePending now) :=
        List.mem_filter.mpr ⟨hj, hp⟩
      have hany : (s.invoices.filter (isOverduePending now)).any
          (fun i => j.id == i.id) = true :=
        List.any_eq_true.mpr ⟨j, hmem, by simp⟩
      rw [hany, if_pos rfl, if_pos hp]
    · have hany : (s.invoices.filter (isOverduePending now)).any
          (fun i => j.id == i.id) = false := by
        rw [Bool.eq_false_iff]
        intro h
        obtain ⟨i, hi, hid⟩ := List.any_eq_true.mp h
        obtain ⟨himem, hip⟩ := List.mem_filter.mp hi
        have hj_eq : j = i :=
          List.inj_on_of_nodup_map hnd hj himem (by rwa [beq_iff_eq] at hid)
        exact hp (hj_eq ▸ hip)
      rw [hany, if_neg hp]
      simp
  · rw [sweep_projects]

/-- Witness for `C2_overdue_sweep` on `sweepStore` at noon of the due day. -/
theorem C2_witness :
    (checkOverdueInvoices sweepStore ⟨2025, 0, 31, 12, 0⟩).1
        = (sweepStore.invoices.filter (isOverduePending ⟨2025, 0, 31, 12, 0⟩)).length ∧
    (checkOverdueInvoices sweepStore ⟨2025, 0, 31, 12, 0⟩).2.invoices
        = sweepStore.invoices.map
            (fun j => if isOverduePending ⟨2025, 0, 31, 12, 0⟩ j
                      then markOverdue j else j) ∧
    (checkOverdueInvoices sweepStore ⟨2025, 0, 31, 12, 0⟩).2.projects
        = sweepStore.projects.map
            (fun p => if (sweepStore.invoices.filter
                            (isOverduePending ⟨2025, 0, 31, 12, 0⟩)).any
                          (fun i => p.id == i.projectId)
                      then deactivateProject p else p) :=
  C2_overdue_sweep sweepStore ⟨2025, 0, 31, 12, 0⟩ (by simp [sweepStore, sweepInvoice])

/-- The application-amount fold is the sum of the per-application prices. -/
theorem foldl_add_tenantAppPrice (l : List TenantApplication) :
    l.foldl (fun acc a => acc + tenantAppPrice a) (0 : Money)
      = (l.map tenantAppPrice).sum := by
  rw [List.sum_eq_foldl, List.foldl_map]

/-- Everything a successful `generateMonthlyInvoice` guarantees about the
created invoice and the post-state. -/
theorem generateMonthlyInvoice_ok_spec (env : TenantEnv) (s : Store) (now : Civil)
    (pid : Nat) (inv : Invoice) (st' : Store)
    (hok : generateMonthlyInvoice env s now pid = (.ok inv, st')) :
    ∃ sub, findActiveSubscription s pid = some sub ∧
      env pid = .ok inv.userCount ∧
      inv.userAmount = (inv.userCount : Money) * sub.userPricePerMonth ∧
      inv.applicationAmount
        = (activeTenantApps s pid).foldl (fun acc a => acc + tenantAppPrice a) 0 ∧
      inv.amount = inv.userAmount + inv.applicationAmount ∧
      inv.applicationCount = (activeTenantApps s pid).length ∧
      inv.dueDate = getNextBillingDate now ∧
      inv.status = .PENDING ∧ inv.paidAt = none ∧
      inv.id = s.nextId ∧ inv.subscriptionId = sub.id ∧ inv.projectId = pid ∧
      st' = advanceSubscription (insertInvoice s inv) sub.id now ∧
      st'.invoices = s.invoices ++ [inv] := by
  cases hcalc : calculateBilling env s now pid with
  | error e =>
    exfalso
    simp only [generateMonthlyInvoice, genInvoicePrepared, hcalc] at hok
    simp at hok
  | ok calculation =>
    cases hsub : findActiveSubscription s pid with
    | none =>
      exfalso
      simp only [generateMonthlyInvoice, genInvoicePrepared, hcalc, hsub] at hok
      simp at hok
    | some sub =>
      simp only [generateMonthlyInvoice, genInvoicePrepared, hcalc, hsub] at hok
      rw [Prod.mk.injEq, Except.ok.injEq] at hok
      obtain ⟨hinv, hst⟩ := hok
      subst hinv
      cases hfp : findProject s pid with
      | none => simp only [calculateBilling, hfp] at hcalc; simp at hcalc
      | some proj =>
        cases henv : env pid with
        | error u =>
          simp only [calculateBilling, hfp, hsub, henv] at hcalc
          simp at hcalc
        | ok n =>
          simp only [calculateBilling, hfp, hsub, henv, Except.ok.injEq] at hcalc
          subst hcalc
          refine ⟨sub, rfl, rfl, rfl, rfl, rfl, rfl, rfl, rfl, rfl, rfl, rfl, rfl,
            hst.symm, ?_⟩
          rw [← hst]
          rfl

/-- Under an existing project, an active subscription, and a responsive
tenant database, `generateMonthlyInvoice` succeeds. -/
theorem generateMonthlyInvoice_ok_of (env : TenantEnv) (s : Store) (now : Civil)
    (pid : Nat) (proj : Project) (sub : Subscription) (n : Nat)
    (hp : findProject s pid = some proj) (hsub : findActiveSubscription s pid = some sub)
    (henv : env pid = .ok n) :
    ∃ inv st', generateMonthlyInvoice env s now pid = (.ok inv, st') := by
  simp only [generateMonthlyInvoice, genInvoicePrepared, calculateBilling, hp, hsub, henv]
  exact ⟨_, _, rfl⟩

/-- C5: every invoice created by a billing run satisfies, in exact decimal
(rational) arithmetic, `amount = userAmount + applicationAmount`, where
`userAmount` is the tenant-database active-user count times the
subscription's per-user monthly price, and `applicationAmount` is the sum
over the project's active tenant applications of the custom price if set,
else the catalog price. -/
theorem C5_invoice_amount_exact (env : TenantEnv) (s : Store) (now : Civil)
    (pid : Nat) (inv : Invoice) (st' : Store)
    (hok : generateMonthlyInvoice env s now pid = (.ok inv, st')) :
    inv.amount = inv.userAmount + inv.applicationAmount ∧
    (∃ sub, findActiveSubscription s pid = some sub ∧
      env pid = .ok inv.userCount ∧
      inv.userAmount = (inv.userCount : Money) * sub.userPricePerMonth) ∧
    inv.applicationAmount = ((activeTenantApps s pid).map tenantAppPrice).sum := by
  obtain ⟨sub, hsub, henv, hua, haa, hamt, _⟩ :=
    generateMonthlyInvoice_ok_spec env s now pid inv st' hok
  exact ⟨hamt, ⟨sub, hsub, henv, hua⟩, haa.trans (foldl_add_tenantAppPrice _)⟩

/-- Evaluation of `generateMonthlyInvoice` on the billing fixture. -/
theorem billFixture_eval :
    generateMonthlyInvoice billEnv billStore billNow 3
      = (.ok cInv, advanceSubscription (insertInvoice billStore cInv) 20 billNow) := by
  simp [generateMonthlyInvoice, genInvoicePrepared, calculateBilling, findProject,
    findActiveSubscription, activeTenantApps, billStore, billSub, billEnv, billNow,
    appA, appB, tenantAppPrice, getNextBillingDate, daysInMonth, isLeapYear, cInv,
    insertInvoice, advanceSubscription, updateSubscription]
  norm_num

/-- Witness for `C5_invoice_amount_exact` on the billing fixture. -/
theorem C5_witness :
    cInv.amount = cInv.userAmount + cInv.applicationAmount ∧
    (∃ sub, findActiveSubscription billStore 3 = some sub ∧
      billEnv 3 = .ok cInv.userCount ∧
      cInv.userAmount = (cInv.userCount : Money) * sub.userPricePerMonth) ∧
    cInv.applicationAmount = ((activeTenantApps billStore 3).map tenantAppPrice).sum :=
  C5_invoice_amount_exact billEnv billStore billNow 3 cInv
    (advanceSubscription (insertInvoice billStore cInv) 20 billNow) billFixture_eval

/-- C3: the state reachable when `generateMonthlyInvoice` fails between its
two separate writes (`invoice.create`, then `subscription.update` — the
source wraps them in no transaction) contains the newly created invoice
while the subscription still holds the old, unadvanced
`lastBilled`/`nextBilling`, refuting the claimed atomicity. -/
theorem C3_generate_not_atomic :
    generateMonthlyInvoiceCrashBetween billEnv billStore billNow 3
        = insertInvoice billStore cInv ∧
    (generateMonthlyInvoiceCrashBetween billEnv billStore billNow 3).invoices
        = billStore.invoices ++ [cInv] ∧
    findActiveSubscription
        (generateMonthlyInvoiceCrashBetween billEnv billStore billNow 3) 3
        = some billSub ∧
    billSub.nextBilling ≠ getNextBillingDate billNow ∧
    billSub.lastBilled = none ∧
    generateMonthlyInvoice billEnv billStore billNow 3
        = (.ok cInv,
           advanceSubscription
             (generateMonthlyInvoiceCrashBetween billEnv billStore billNow 3) 20
             billNow) := by
  have hmid : generateMonthlyInvoiceCrashBetween billEnv billStore billNow 3
      = insertInvoice billStore cInv := by
    simp [generateMonthlyInvoiceCrashBetween, genInvoicePrepared, calculateBilling,
      findProject, findActiveSubscription, activeTenantApps, billStore, billSub,
      billEnv, billNow, appA, appB, tenantAppPrice, getNextBillingDate, daysInMonth,
      isLeapYear, cInv, insertInvoice]
    norm_num
  refine ⟨hmid, ?_, ?_, by decide, rfl, ?_⟩
  · rw [hmid]; rfl
  · rw [hmid]
    simp [findActiveSubscription, insertInvoice, billStore, billSub, cInv]
  · rw [hmid]
    exact billFixture_eval

/-- C4 (code bug): `getNextBillingDate` returns the last day of the *current*
month at midnight, so an invoice generated at the scheduled monthly run
(23:59 on the last day of the month) is created with a `dueDate` already in
the past — it is immediately eligible for the overdue sweep, contradicting
the claimed "next month-end, not already in the past" due date. -/
theorem C4_dueDate_already_past :
    (generateMonthlyInvoice billEnv billStore c4Now 3).1 = .ok c4Inv ∧
    c4Inv.dueDate = getNextBillingDate c4Now ∧
    c4Inv.dueDate.before c4Now = true ∧
    isOverduePending c4Now c4Inv = true := by
  refine ⟨?_, by decide, by decide, by decide⟩
  have h : generateMonthlyInvoice billEnv billStore c4Now 3
      = (.ok c4Inv, advanceSubscription (insertInvoice billStore c4Inv) 20 c4Now) := by
    simp [generateMonthlyInvoice, genInvoicePrepared, calculateBilling, findProject,
      findActiveSubscription, activeTenantApps, billStore, billSub, billEnv, c4Now,
      appA, appB, tenantAppPrice, getNextBillingDate, daysInMonth, isLeapYear, c4Inv,
      insertInvoice, advanceSubscription, updateSubscription]
    norm_num
  rw [h]

/-- Each loop iteration increments exactly one of the two counters. -/
theorem billingLoop_counts (env : TenantEnv) (now : Civil) (subs : List Subscription) :
    ∀ (p e : Nat) (st : Store),
      (billingLoop env now (p, e, st) subs).1
        + (billingLoop env now (p, e, st) subs).2.1 = p + e + subs.length := by
  induction subs with
  | nil => intro p e st; rfl
  | cons sub rest ih =>
    intro p e st
    have hstep : billingLoop env now (p, e, st) (sub :: rest)
        = billingLoop env now
            (match generateMonthlyInvoice env st now sub.projectId with
              | (.ok _, st') => (p + 1, e, st')
              | (.error _, _) => (p, e + 1, st)) rest := rfl
    rcases hg : generateMonthlyInvoice env st now sub.projectId with ⟨res, st'⟩
    cases res with
    | ok inv =>
      rw [hstep, hg]
      show (billingLoop env now (p + 1, e, st') rest).1
          + (billingLoop env now (p + 1, e, st') rest).2.1 = p + e + (sub :: rest).length
      rw [ih]
      simp [List.length_cons]
      omega
    | error err =>
      rw [hstep, hg]
      show (billingLoop env now (p, e + 1, st) rest).1
          + (billingLoop env now (p, e + 1, st) rest).2.1 = p + e + (sub :: rest).length
      rw [ih]
      simp [List.length_cons]
      omega

/-- `processMonthlyBilling` as the loop followed by one sweep. -/
theorem processMonthlyBilling_eq (env : TenantEnv) (s : Store) (now : Civil) :
    processMonthlyBilling env s now
      = ({ processedCount := (billingLoop env now (0, 0, s)
              (s.subscriptions.filter (fun x => x.isActive))).1,
           errorCount := (billingLoop env now (0, 0, s)
              (s.subscriptions.filter (fun x => x.isActive))).2.1,
           overdueCount := (checkOverdueInvoices (billingLoop env now (0, 0, s)
              (s.subscriptions.filter (fun x => x.isActive))).2.2 now).1 },
         (checkOverdueInvoices (billingLoop env now (0, 0, s)
            (s.subscriptions.filter (fun x => x.isActive))).2.2 now).2) := by
  unfold processMonthlyBilling
  rcases hL : billingLoop env now (0, 0, s) (s.subscriptions.filter fun x => x.isActive)
    with ⟨p, e, st⟩
  rcases hC : checkOverdueInvoices st now with ⟨o, s2⟩
  simp [hL, hC]

/-- C6: `processMonthlyBilling` attempts every active subscription exactly
once — per-tenant failures increment `errorCount` without aborting the
remaining iterations, so `processedCount + errorCount` equals the number of
active subscriptions; after the loop it runs `checkOverdueInvoices` exactly
once on the loop's final state and returns its count as `overdueCount`; and
a tenant with zero users and zero active applications still gets exactly one
new invoice, with amount 0. -/
theorem C6_processMonthlyBilling_counts :
    (∀ (env : TenantEnv) (s : Store) (now : Civil),
        (processMonthlyBilling env s now).1.processedCount
          + (processMonthlyBilling env s now).1.errorCount
          = (s.subscriptions.filter (fun x => x.isActive)).length) ∧
    (∀ (env : TenantEnv) (s : Store) (now : Civil),
        (processMonthlyBilling env s now).1.overdueCount
            = (checkOverdueInvoices (billingLoop env now (0, 0, s)
                (s.subscriptions.filter (fun x => x.isActive))).2.2 now).1 ∧
        (processMonthlyBilling env s now).2
            = (checkOverdueInvoices (billingLoop env now (0, 0, s)
                (s.subscriptions.filter (fun x => x.isActive))).2.2 now).2) ∧
    (∀ (env : TenantEnv) (s : Store) (now : Civil) (pid : Nat)
        (proj : Project) (sub : Subscription),
        findProject s pid = some proj →
        findActiveSubscription s pid = some sub →
        env pid = .ok 0 →
        activeTenantApps s pid = [] →
        ∃ inv st', generateMonthlyInvoice env s now pid = (.ok inv, st') ∧
          inv.amount = 0 ∧ st'.invoices = s.invoices ++ [inv]) := by
  refine ⟨?_, ?_, ?_⟩
  · intro env s now
    rw [processMonthlyBilling_eq]
    have h := billingLoop_counts env now
      (s.subscriptions.filter (fun x => x.isActive)) 0 0 s
    simpa using h
  · intro env s now
    rw [processMonthlyBilling_eq]
    exact ⟨rfl, rfl⟩
  · intro env s now pid proj sub hp hsub henv happs
    obtain ⟨inv, st', hok⟩ :=
      generateMonthlyInvoice_ok_of env s now pid proj sub 0 hp hsub henv
    obtain ⟨sub2, hsub2, henv2, hua, haa, hamt, _, _, _, _, _, _, _, _, hinvs⟩ :=
      generateMonthlyInvoice_ok_spec env s now pid inv st' hok
    refine ⟨inv, st', hok, ?_, hinvs⟩
    have hc : inv.userCount = 0 := by
      rw [henv] at henv2
      injection henv2 with h
      exact h.symm
    rw [hamt, hua, haa, happs, hc]
    simp

/-- Witness for `C6_processMonthlyBilling_counts` on the zero-usage
fixture. -/
theorem C6_witness :
    (processMonthlyBilling zeroEnv zeroStore billNow).1.processedCount
        + (processMonthlyBilling zeroEnv zeroStore billNow).1.errorCount
        = (zeroStore.subscriptions.filter (fun x => x.isActive)).length ∧
    ∃ inv st', generateMonthlyInvoice zeroEnv zeroStore billNow 4 = (.ok inv, st') ∧
      inv.amount = 0 ∧ st'.invoices = zeroStore.invoices ++ [inv] :=
  ⟨C6_processMonthlyBilling_counts.1 zeroEnv zeroStore billNow,
   C6_processMonthlyBilling_counts.2.2 zeroEnv zeroStore billNow 4
     { id := 4, isActive := true } zeroSub (by decide) (by decide) rfl (by decide)⟩

/-- C8 counterexample: with a failing tenant directory, the domain lookup
returns the same `noMatch` outcome as a directory that genuinely has no
matching tenant, and host-based resolution proceeds tenant-less — the store
failure is swallowed inside `getProjectIdByDomain`'s catch, not surfaced. -/
theorem C8_counterexample :
    getProjectIdByDomain (fun _ => .error ()) (strCodes "acme.com") = .noMatch ∧
    getProjectIdByDomain (fun _ => .error ()) (strCodes "acme.com")
      = getProjectIdByDomain (fun _ => .ok none) (strCodes "acme.com") ∧
    resolveProjectId (fun _ => .error ()) none (some (strCodes "acme.com")) = none :=
  ⟨rfl, rfl, rfl⟩

/-- C8 (amended): every error of the tenant-directory lookup during
host/domain-based resolution is caught and logged inside
`getProjectIdByDomain` and converted to the no-match outcome, so resolution
continues tenant-less exactly as if no tenant had matched; the error is not
surfaced to the calling request. -/
theorem C8_directory_error_swallowed :
    (∀ (dir : DirectoryEnv) (d : List Nat), dir d = .error () →
        getProjectIdByDomain dir d = .noMatch) ∧
    (∀ (dir : DirectoryEnv) (host : List Nat),
        dir (normalizeDomain (extractDomainFromHost host)) = .error () →
        resolveProjectId dir none (some host) = none) := by
  constructor
  · intro dir d herr
    unfold getProjectIdByDomain
    rw [herr]
  · intro dir host herr
    show (match getProjectIdByDomain dir (normalizeDomain (extractDomainFromHost host)) with
          | DomainLookupOutcome.found pid => some pid
          | DomainLookupOutcome.noMatch => none) = none
    unfold getProjectIdByDomain
    rw [herr]

/-- Witness for `C8_directory_error_swallowed` with an always-failing
directory. -/
theorem C8_witness :
    getProjectIdByDomain (fun _ => .error ()) (strCodes "shop.example.org")
        = .noMatch ∧
    resolveProjectId (fun _ => .error ()) none (some (strCodes "shop.example.org"))
        = none :=
  ⟨C8_directory_error_swallowed.1 (fun _ => .error ()) (strCodes "shop.example.org") rfl,
   C8_directory_error_swallowed.2 (fun _ => .error ()) (strCodes "shop.example.org") rfl⟩
